import Mathlib

/- Verification of the DESDA adaptive reservoir subsystem.

   The definitions below are a shallow embedding of the Python sources:
   `structure.py` (the weighted sliding-window reservoir, the aging module and
   the reduction module), `nonstationarity.py` (the KPSS-based nonstationarity
   degree estimator) and `algorithm.py` (the `DEDSTA` orchestrator variant).
   Python floats are modelled by exact rationals (weights, nonstationarity
   degrees) or reals (statistics fed through the sigmoid squash); a Python
   `IndexError` (popping from an empty list) is modelled by `Option`/`Except`
   failure, with the convention that a call that raises leaves the mutated
   object unchanged. -/

namespace DESDA

/-- A single sample: an observation value together with its importance weight
(`DEDSTADataPoint` in `structure.py`). -/
structure DEDSTADataPoint (α : Type) where
  value : α
  weight : ℚ
  deriving DecidableEq, Repr

/-- The `DEDSTADataPoint(value)` constructor: a fresh sample with weight 1.0. -/
def mkDataPoint {α : Type} (v : α) : DEDSTADataPoint α :=
  { value := v, weight := 1 }

/-- `DEDSTAReservoir.size`: the number of stored samples. -/
def size {α : Type} (pts : List (DEDSTADataPoint α)) : ℕ :=
  pts.length

/-- `DEDSTAReservoir.get_points`: the values, in storage order (newest first in
`structure.py`, since `add` inserts at index 0). -/
def get_points {α : Type} (pts : List (DEDSTADataPoint α)) : List α :=
  pts.map (fun p => p.value)

/-- `DEDSTAReservoir.get_weights`: the weights, in storage order. -/
def get_weights {α : Type} (pts : List (DEDSTADataPoint α)) : List ℚ :=
  pts.map (fun p => p.weight)

/-- `DEDSTAReservoir.reset_weights`: sets every weight back to 1.0. -/
def reset_weights {α : Type} (pts : List (DEDSTADataPoint α)) :
    List (DEDSTADataPoint α) :=
  pts.map (fun p => { p with weight := 1 })

/-- `DEDSTASlidingWindowReservoir.remove` from `structure.py`:
`self.data_points.pop(-1)` removes the last stored sample (the oldest, since
storage is newest first); popping an empty list raises `IndexError`, modelled
as `none`. -/
def DEDSTASlidingWindowReservoir.remove {α : Type}
    (pts : List (DEDSTADataPoint α)) : Option (List (DEDSTADataPoint α)) :=
  match pts with
  | [] => none
  | _ :: _ => some pts.dropLast

/-- `DEDSTAReservoir.add` from `structure.py`, specialised to the sliding-window
`remove`: `if self.size() >= self.max_size: self.remove()` then
`self.data_points.insert(0, DEDSTADataPoint(data_point))`. The second component
records whether the eviction branch executed. If `remove` raises, the insert is
never reached and the reservoir is left unchanged (`none`). -/
def addTraced {α : Type} (max_size : ℕ) (pts : List (DEDSTADataPoint α))
    (v : α) : Option (List (DEDSTADataPoint α)) × Bool :=
  if max_size ≤ size pts then
    match DEDSTASlidingWindowReservoir.remove pts with
    | none => (none, true)
    | some pruned => (some (mkDataPoint v :: pruned), true)
  else
    (some (mkDataPoint v :: pts), false)

/-- `DEDSTAReservoir.add` (sliding-window variant), without the trace. -/
def add {α : Type} (max_size : ℕ) (pts : List (DEDSTADataPoint α)) (v : α) :
    Option (List (DEDSTADataPoint α)) :=
  (addTraced max_size pts v).1

/-- Run a sequence of `add` calls from a given state; a call that raises
(`IndexError` inside `remove`) leaves the reservoir unchanged and the sequence
continues. -/
def addAll {α : Type} (max_size : ℕ) (vs : List α)
    (pts : List (DEDSTADataPoint α)) : List (DEDSTADataPoint α) :=
  vs.foldl (fun s v => (add max_size s v).getD s) pts

/-- `DEDSTAAgingModule.apply` from `structure.py`: for `i in range(n)` set
`data_points[i].weight = 2 * (1 - i * nonstationarity / n_elements)`, where
`n_elements` is the reservoir size read before the loop. -/
def DEDSTAAgingModule.apply {α : Type} (nonstationarity : ℚ)
    (pts : List (DEDSTADataPoint α)) : List (DEDSTADataPoint α) :=
  pts.mapIdx fun i p =>
    { p with weight := 2 * (1 - (i : ℚ) * nonstationarity / (size pts : ℚ)) }

/-- The two clamping `if`s of `DEDSTAReductionModule.apply`:
`if m < min_size: m = min_size` then `if m > max_size: m = max_size`. -/
def clampInt (min_size max_size : ℕ) (m0 : ℤ) : ℤ :=
  let m1 := if m0 < (min_size : ℤ) then (min_size : ℤ) else m0
  if m1 > (max_size : ℤ) then (max_size : ℤ) else m1

/-- The reduction target of `DEDSTAReductionModule.apply`:
`m = floor(1.1 * max_size * (1 - nonstationarity))`, then clamped. -/
def clampTarget (min_size max_size : ℕ) (nonstationarity : ℚ) : ℤ :=
  clampInt min_size max_size
    (Int.floor ((1.1 : ℚ) * (max_size : ℚ) * (1 - nonstationarity)))

/-- The clamped target as a natural number; lossless because the clamped value
is bounded below by `min_size ≥ 0`. -/
def targetSize (min_size max_size : ℕ) (nonstationarity : ℚ) : ℕ :=
  (clampTarget min_size max_size nonstationarity).toNat

/-- The `while self.reservoir.size() > m: self.reservoir.remove()` loop of
`DEDSTAReductionModule.apply` (sliding-window `remove` drops the last, i.e.
oldest, sample; the guard keeps the list nonempty, so the pop cannot raise). -/
def removeLoop {α : Type} (m : ℕ) (pts : List (DEDSTADataPoint α)) :
    List (DEDSTADataPoint α) :=
  if h : m < pts.length then removeLoop m pts.dropLast else pts
termination_by pts.length
decreasing_by
  simp only [List.length_dropLast]
  omega

/-- The same loop, recording the reservoir size at each `remove()` call. -/
def removeLoopTrace {α : Type} (m : ℕ) (pts : List (DEDSTADataPoint α)) :
    List ℕ :=
  if h : m < pts.length then pts.length :: removeLoopTrace m pts.dropLast else []
termination_by pts.length
decreasing_by
  simp only [List.length_dropLast]
  omega

/-- `DEDSTAReductionModule.apply` from `structure.py`. -/
def DEDSTAReductionModule.apply {α : Type} (min_size max_size : ℕ) (ν : ℚ)
    (pts : List (DEDSTADataPoint α)) : List (DEDSTADataPoint α) :=
  removeLoop (targetSize min_size max_size ν) pts

/-- `KPSSNonstationarityDegreeEstimator.update` from `nonstationarity.py`: on
an empty window the first observation becomes the single row; when the window
holds exactly `window_size` rows the oldest row (row 0) is deleted; then the
new observation is appended as the last row. -/
def KPSSNonstationarityDegreeEstimator.update {α : Type} (window_size : ℕ)
    (data : List α) (x : α) : List α :=
  if data.length = 0 then [x]
  else if data.length = window_size then data.drop 1 ++ [x]
  else data ++ [x]

/-- A sequence of estimator `update` calls starting from the empty window. -/
def KPSS_feed {α : Type} (window_size : ℕ) (vs : List α) : List α :=
  vs.foldl (KPSSNonstationarityDegreeEstimator.update window_size) []

/-- The sigmoid `sgm(x) = 1 / (1 + exp(-x))` from `nonstationarity.py`. -/
noncomputable def sgm (x : ℝ) : ℝ :=
  1 / (1 + Real.exp (-x))

/-- Column `i` of the estimator window (`self._data[:, i]`); all rows share
the dimensionality of the first observation, so the `getD` default is never
read on well-formed windows. -/
def column (rows : List (List ℝ)) (i : ℕ) : List ℝ :=
  rows.map (fun row => row.getD i 0)

/-- The `for i in range(self._data.shape[1])` loop of
`KPSSNonstationarityDegreeEstimator.evaluate`: run the external stationarity
test (statsmodels `kpss`, abstracted as a fallible collaborator) on each column
in order and squash each statistic through `sgm(0.995 * s - 2.932)`; the first
raised test exception aborts the loop and propagates. -/
noncomputable def collectDegrees (test : List ℝ → Except String ℝ)
    (rows : List (List ℝ)) : List ℕ → Except String (List ℝ)
  | [] => Except.ok []
  | i :: is =>
    match test (column rows i) with
    | Except.error e => Except.error e
    | Except.ok s =>
      match collectDegrees test rows is with
      | Except.error e => Except.error e
      | Except.ok rest => Except.ok (sgm (0.995 * s - 2.932) :: rest)

/-- Python `max` over a list: raises on an empty sequence, otherwise folds the
binary maximum over the elements. -/
noncomputable def pythonMax (l : List ℝ) : Except String ℝ :=
  match l with
  | [] => Except.error "max() arg is an empty sequence"
  | d :: ds => Except.ok (ds.foldl max d)

/-- `KPSSNonstationarityDegreeEstimator.evaluate` from `nonstationarity.py`:
reading `self._data.shape[1]` on an empty window raises (`IndexError`),
otherwise each dimension's degree is collected and the maximum is returned.
The number of dimensions is the length of the first row. -/
noncomputable def KPSSNonstationarityDegreeEstimator.evaluate
    (test : List ℝ → Except String ℝ) (rows : List (List ℝ)) :
    Except String ℝ :=
  match rows with
  | [] => Except.error "tuple index out of range"
  | r :: _ =>
    match collectDegrees test rows (List.range r.length) with
    | Except.error e => Except.error e
    | Except.ok degrees => pythonMax degrees

/-- The arguments `DEDSTA.evaluate` (from `algorithm.py`) passes to the
external density-fitting collaborator: `FFTKDE(bw=1, kernel=self.kernel)` is
fitted on the reservoir's points and weights and evaluated at `grid_points`. -/
structure FitCall (α : Type) where
  points : List α
  weights : List ℚ
  kernel : String
  bw : ℚ
  grid : List ℚ
  deriving DecidableEq, Repr

/-- `DEDSTA.evaluate` from `algorithm.py`: fits the external KDE on the
reservoir's current points and weights and evaluates it at `grid_points`,
returning the call made to the external collaborator together with the
(unchanged) reservoir state. It computes no nonstationarity degree, performs
no `reset_weights`, and applies no adaptation module before fitting. -/
def DEDSTA.evaluate {α : Type} (kernel : String)
    (reservoir : List (DEDSTADataPoint α)) (grid_points : List ℚ) :
    FitCall α × List (DEDSTADataPoint α) :=
  ({ points := get_points reservoir, weights := get_weights reservoir,
     kernel := kernel, bw := 1, grid := grid_points }, reservoir)

theorem reverse_dropLast {α : Type} (l : List α) :
    l.reverse.dropLast = l.tail.reverse := by
  cases l with
  | nil => rfl
  | cons a t => simp [List.reverse_cons]

/-- Closed form for a sequence of sliding-window `add` calls starting from the
empty reservoir: the state holds the most recent `min (vs.length) max_size`
values, newest first, each with weight 1.0. -/
theorem addAll_eq {α : Type} (max_size : ℕ) (vs : List α) :
    addAll max_size vs []
      = ((vs.drop (vs.length - max_size)).reverse).map mkDataPoint := by
  induction vs using List.reverseRecOn with
  | nil => simp [addAll]
  | append_singleton xs x ih =>
    have hstep : addAll max_size (xs ++ [x]) []
        = (add max_size (addAll max_size xs []) x).getD (addAll max_size xs []) := by
      simp [addAll, List.foldl_append]
    rw [hstep, ih]
    have hlen : ((xs.drop (xs.length - max_size)).reverse.map
        (mkDataPoint (α := α))).length = xs.length - (xs.length - max_size) := by
      simp
    by_cases hk : max_size ≤ xs.length
    · -- the eviction branch runs
      have hweq : xs.length - (xs.length - max_size) = max_size := by omega
      by_cases h0 : max_size = 0
      · subst h0
        have hdrop : xs.drop (xs.length - 0) = [] := by
          simp [List.drop_eq_nil_of_le]
        have hdrop' : (xs ++ [x]).drop ((xs ++ [x]).length - 0) = [] := by
          simp [List.drop_eq_nil_of_le]
        simp [hdrop, hdrop', add, addTraced, DEDSTASlidingWindowReservoir.remove]
      · -- max_size ≥ 1: the removal succeeds and x is prepended
        have h1 : 1 ≤ max_size := Nat.one_le_iff_ne_zero.mpr h0
        set w := xs.drop (xs.length - max_size) with hw
        have hwlen : w.length = max_size := by
          rw [hw]; simp; omega
        have hne : w.reverse.map (mkDataPoint (α := α)) ≠ [] := by
          intro hcontra
          have := congrArg List.length hcontra
          simp [hwlen] at this
          omega
        have hbranch : max_size ≤ size (w.reverse.map (mkDataPoint (α := α))) := by
          simp [size, hwlen]
        obtain ⟨a, t, hat⟩ : ∃ a t, w.reverse.map (mkDataPoint (α := α)) = a :: t := by
          cases hwr : w.reverse.map (mkDataPoint (α := α)) with
          | nil => exact absurd hwr hne
          | cons a t => exact ⟨a, t, rfl⟩
        have hdl : (w.reverse.map (mkDataPoint (α := α))).dropLast
            = (w.tail.reverse).map (mkDataPoint (α := α)) := by
          rw [← List.map_dropLast, reverse_dropLast]
        have hres : (add max_size (w.reverse.map (mkDataPoint (α := α))) x).getD
              (w.reverse.map (mkDataPoint (α := α)))
            = mkDataPoint x :: (w.tail.reverse).map (mkDataPoint (α := α)) := by
          rw [add, addTraced, if_pos hbranch, hat,
              DEDSTASlidingWindowReservoir.remove]
          simp [← hat, hdl]
        rw [hres]
        have htail : w.tail = xs.drop (xs.length + 1 - max_size) := by
          rw [hw, List.tail_drop]
          congr 1
          omega
        have hwin : (xs ++ [x]).drop ((xs ++ [x]).length - max_size)
            = xs.drop (xs.length + 1 - max_size) ++ [x] := by
          have hle : (xs ++ [x]).length - max_size ≤ xs.length := by
            simp; omega
          rw [List.drop_append_of_le_length hle]
          congr 2
          simp
        rw [hwin, List.reverse_append, htail]
        simp [mkDataPoint]
    · -- no eviction: the reservoir is not yet full
      push_neg at hk
      have hdrop0 : xs.length - max_size = 0 := by omega
      have hbranch : ¬ max_size ≤ size ((xs.drop (xs.length - max_size)).reverse.map
          (mkDataPoint (α := α))) := by
        simp [size, hdrop0]
        omega
      rw [add, addTraced, if_neg hbranch]
      have hdrop0' : xs.length + 1 - max_size = 0 := by omega
      simp [hdrop0, hdrop0']

theorem clampInt_eq (min_size max_size : ℕ) (h : min_size ≤ max_size) (m0 : ℤ) :
    clampInt min_size max_size m0 = max (min_size : ℤ) (min (max_size : ℤ) m0) := by
  unfold clampInt
  dsimp only
  split_ifs <;> omega

theorem clampInt_nonneg (min_size max_size : ℕ) (m0 : ℤ) :
    0 ≤ clampInt min_size max_size m0 := by
  unfold clampInt
  dsimp only
  split_ifs <;> omega

theorem clampTarget_nonneg (min_size max_size : ℕ) (ν : ℚ) :
    0 ≤ clampTarget min_size max_size ν :=
  clampInt_nonneg _ _ _

theorem removeLoop_eq_take_aux {α : Type} (m : ℕ) (n : ℕ) :
    ∀ pts : List (DEDSTADataPoint α), pts.length ≤ n →
      removeLoop m pts = pts.take m := by
  induction n with
  | zero =>
    intro pts h
    rw [removeLoop]
    rw [dif_neg (by omega)]
    rw [List.take_of_length_le (by omega)]
  | succ n ih =>
    intro pts h
    rw [removeLoop]
    by_cases hlt : m < pts.length
    · rw [dif_pos hlt]
      rw [ih pts.dropLast (by simp only [List.length_dropLast]; omega)]
      rw [List.dropLast_eq_take, List.take_take]
      congr 1
      omega
    · rw [dif_neg hlt]
      rw [List.take_of_length_le (by omega)]

theorem removeLoop_eq_take {α : Type} (m : ℕ) (pts : List (DEDSTADataPoint α)) :
    removeLoop m pts = pts.take m :=
  removeLoop_eq_take_aux m pts.length pts le_rfl

theorem removeLoopTrace_mem_aux {α : Type} (m : ℕ) (n : ℕ) :
    ∀ pts : List (DEDSTADataPoint α), pts.length ≤ n →
      ∀ s ∈ removeLoopTrace m pts, m < s := by
  induction n with
  | zero =>
    intro pts h s hs
    rw [removeLoopTrace, dif_neg (by omega)] at hs
    exact absurd hs (List.not_mem_nil s)
  | succ n ih =>
    intro pts h s hs
    rw [removeLoopTrace] at hs
    by_cases hlt : m < pts.length
    · rw [dif_pos hlt] at hs
      rcases List.mem_cons.mp hs with h1 | h2
      · omega
      · exact ih pts.dropLast (by simp only [List.length_dropLast]; omega) s h2
    · rw [dif_neg hlt] at hs
      exact absurd hs (List.not_mem_nil s)

theorem removeLoopTrace_mem {α : Type} (m : ℕ)
    (pts : List (DEDSTADataPoint α)) : ∀ s ∈ removeLoopTrace m pts, m < s :=
  removeLoopTrace_mem_aux m pts.length pts le_rfl

/-- Claim C3: `DEDSTAAgingModule.apply ν` on a reservoir of size `n > 0` sets
the weight at position `i` (0 = newest) to exactly `2 * (1 - i * ν / n)`, keeps
the stored values unchanged, and is a no-op on an empty reservoir; for `n = 4`
and `ν = 1/2` the weights are `[2, 7/4, 3/2, 5/4]`. -/
theorem C3_aging_formula (ν : ℚ) (pts : List (DEDSTADataPoint ℚ)) :
    DEDSTAAgingModule.apply ν ([] : List (DEDSTADataPoint ℚ)) = []
    ∧ get_points (DEDSTAAgingModule.apply ν pts) = get_points pts
    ∧ (∀ i, i < size pts →
        (get_weights (DEDSTAAgingModule.apply ν pts)).getD i 0
          = 2 * (1 - (i : ℚ) * ν / (size pts : ℚ)))
    ∧ get_weights (DEDSTAAgingModule.apply (1 / 2)
        [mkDataPoint (0 : ℚ), mkDataPoint 0, mkDataPoint 0, mkDataPoint 0])
        = [2, 7 / 4, 3 / 2, 5 / 4] := by
  refine ⟨by simp [DEDSTAAgingModule.apply], ?_, ?_, ?_⟩
  · apply List.ext_getElem
    · simp [get_points, DEDSTAAgingModule.apply]
    · intro i h1 h2
      simp [get_points, DEDSTAAgingModule.apply]
  · intro i hi
    have hlen : i < (get_weights (DEDSTAAgingModule.apply ν pts)).length := by
      simp [get_weights, DEDSTAAgingModule.apply]
      exact hi
    rw [List.getD_eq_getElem?_getD, List.getElem?_eq_getElem hlen]
    simp [get_weights, DEDSTAAgingModule.apply]
  · simp [DEDSTAAgingModule.apply, List.mapIdx_cons, get_weights, size,
      mkDataPoint]
    norm_num

theorem C3_aging_formula_witness :
    (1 : ℕ) < size [mkDataPoint (0 : ℚ), mkDataPoint 0, mkDataPoint 0,
        mkDataPoint 0]
    ∧ (get_weights (DEDSTAAgingModule.apply (1 / 2)
        [mkDataPoint (0 : ℚ), mkDataPoint 0, mkDataPoint 0,
          mkDataPoint 0])).getD 1 0
      = 2 * (1 - ((1 : ℕ) : ℚ) * (1 / 2) / (size [mkDataPoint (0 : ℚ),
          mkDataPoint 0, mkDataPoint 0, mkDataPoint 0] : ℚ)) :=
  ⟨by decide,
    (C3_aging_formula (1 / 2) [mkDataPoint 0, mkDataPoint 0, mkDataPoint 0,
      mkDataPoint 0]).2.2.1 1 (by decide)⟩

/-- Claim C4: `DEDSTAReductionModule.apply ν` for `ν ∈ [0, 1]` computes the
target `m = clamp(floor(1.1 * max_size * (1 - ν)), min_size, max_size)` and
removes oldest samples until the size does not exceed `m`: the result is the
newest-first prefix of length `m`, the size never increases, the call is a
no-op when `m ≥ size()`, and when the pre-call size is at least `m` the
post-call size is exactly `m`. -/
theorem C4_reduction_target (min_size max_size : ℕ) (ν : ℚ)
    (hmm : min_size ≤ max_size) (hν0 : 0 ≤ ν) (hν1 : ν ≤ 1)
    (pts : List (DEDSTADataPoint ℚ)) :
    clampTarget min_size max_size ν
      = max (min_size : ℤ) (min (max_size : ℤ)
          (Int.floor ((1.1 : ℚ) * (max_size : ℚ) * (1 - ν))))
    ∧ (targetSize min_size max_size ν : ℤ) = clampTarget min_size max_size ν
    ∧ DEDSTAReductionModule.apply min_size max_size ν pts
        = pts.take (targetSize min_size max_size ν)
    ∧ size (DEDSTAReductionModule.apply min_size max_size ν pts) ≤ size pts
    ∧ (size pts ≤ targetSize min_size max_size ν →
        DEDSTAReductionModule.apply min_size max_size ν pts = pts)
    ∧ (targetSize min_size max_size ν ≤ size pts →
        size (DEDSTAReductionModule.apply min_size max_size ν pts)
          = targetSize min_size max_size ν) := by
  refine ⟨clampInt_eq min_size max_size hmm _, ?_, ?_, ?_, ?_, ?_⟩
  · exact Int.toNat_of_nonneg (clampTarget_nonneg min_size max_size ν)
  · exact removeLoop_eq_take _ pts
  · rw [DEDSTAReductionModule.apply, removeLoop_eq_take]
    simp [size]
  · intro hle
    rw [DEDSTAReductionModule.apply, removeLoop_eq_take]
    exact List.take_of_length_le hle
  · intro hge
    rw [DEDSTAReductionModule.apply, removeLoop_eq_take]
    simp only [size] at hge ⊢
    simp only [List.length_take]
    omega

theorem C4_reduction_target_witness :
    DEDSTAReductionModule.apply 10 100 0
        [mkDataPoint (7 : ℚ), mkDataPoint 8, mkDataPoint 9]
      = [mkDataPoint (7 : ℚ), mkDataPoint 8, mkDataPoint 9].take
          (targetSize 10 100 0) :=
  (C4_reduction_target 10 100 0 (by decide) le_rfl zero_le_one
    [mkDataPoint 7, mkDataPoint 8, mkDataPoint 9]).2.2.1

/-- Claim C8: with `0 ≤ min_size ≤ max_size`, the removal loop of
`DEDSTAReductionModule.apply` only ever calls `remove()` while
`size() > m ≥ min_size ≥ 0`, hence never on an empty reservoir. The trace
records the reservoir size at each `remove()` call. -/
theorem C8_no_empty_remove (min_size max_size : ℕ) (ν : ℚ)
    (hmm : min_size ≤ max_size) (pts : List (DEDSTADataPoint ℚ)) :
    (min_size : ℤ) ≤ clampTarget min_size max_size ν
    ∧ ∀ s ∈ removeLoopTrace (targetSize min_size max_size ν) pts,
        targetSize min_size max_size ν < s ∧ 0 < s := by
  constructor
  · rw [clampTarget, clampInt_eq min_size max_size hmm]
    exact le_max_left _ _
  · intro s hs
    have h1 := removeLoopTrace_mem _ pts s hs
    exact ⟨h1, by omega⟩

theorem C8_no_empty_remove_witness :
    ((1 : ℕ) : ℤ) ≤ clampTarget 1 2 1
    ∧ ∀ s ∈ removeLoopTrace (targetSize 1 2 1)
        [mkDataPoint (3 : ℚ), mkDataPoint 4, mkDataPoint 5],
        targetSize 1 2 1 < s ∧ 0 < s :=
  C8_no_empty_remove 1 2 1 (by decide) [mkDataPoint 3, mkDataPoint 4,
    mkDataPoint 5]

/-- Claim C1: for every sliding-window reservoir created empty with bounds
`0 ≤ min_size ≤ max_size` and every sequence of `add` calls, `size() ≤ max_size`
holds after every `add` call. (Stated for the state reached after any prefix of
the sequence, which is itself of the form `addAll`.) -/
theorem C1_bounded_size (min_size max_size : ℕ) (h : min_size ≤ max_size)
    (vs : List ℚ) : size (addAll max_size vs []) ≤ max_size := by
  rw [addAll_eq]
  simp [size]
  omega

theorem C1_bounded_size_witness :
    (0 : ℕ) ≤ 2 ∧ size (addAll 2 [(5 : ℚ), 6, 7] []) ≤ 2 :=
  ⟨by decide, C1_bounded_size 0 2 (by decide) [5, 6, 7]⟩

/-- Claim C2: inserting `v1, …, vk` via `add` into an empty sliding-window
reservoir leaves `get_points()` equal to the last `min (k, max_size)` inserted
values, newest first; in particular inserting `max_size + 1` values evicts
exactly the first-inserted value, leaving the last `max_size` values. -/
theorem C2_fifo_eviction {α : Type} (max_size : ℕ) (vs : List α) :
    get_points (addAll max_size vs []) = (vs.drop (vs.length - max_size)).reverse
    ∧ (get_points (addAll max_size vs [])).length = min vs.length max_size
    ∧ (vs.length = max_size + 1 →
        get_points (addAll max_size vs []) = vs.tail.reverse) := by
  have hmain : get_points (addAll max_size vs [])
      = (vs.drop (vs.length - max_size)).reverse := by
    have hcomp : ((fun (p : DEDSTADataPoint α) => p.value) ∘ (mkDataPoint (α := α)))
        = fun v => v := by
      funext v
      rfl
    rw [addAll_eq, get_points]
    rw [List.map_map, hcomp]
    simp
  refine ⟨hmain, ?_, ?_⟩
  · rw [hmain]
    simp
    omega
  · intro hlen
    rw [hmain, hlen]
    simp

theorem C2_fifo_eviction_witness :
    get_points (addAll 2 [(1 : ℚ), 2, 3] []) = [(3 : ℚ), 2] := by
  have h := (C2_fifo_eviction 2 [(1 : ℚ), 2, 3]).2.2 (by decide)
  simpa using h

/-- Claim C10: for a sliding-window reservoir with `max_size ≥ 1`, `add` never
runs the eviction branch (which calls `remove`/`pop`) on an empty reservoir,
since the branch requires `size() ≥ max_size ≥ 1`; with `max_size = 0` the very
first `add` does reach the eviction branch with the reservoir still empty. -/
theorem C10_no_empty_eviction :
    (∀ (max_size : ℕ) (pts : List (DEDSTADataPoint ℚ)) (v : ℚ),
        1 ≤ max_size → (addTraced max_size pts v).2 = true → pts ≠ [])
    ∧ (addTraced 0 ([] : List (DEDSTADataPoint ℚ)) (0 : ℚ)).2 = true
    ∧ size ([] : List (DEDSTADataPoint ℚ)) = 0 := by
  refine ⟨?_, rfl, rfl⟩
  intro max_size pts v h1 hbr
  intro hnil
  subst hnil
  rw [addTraced] at hbr
  simp [size] at hbr
  split at hbr
  · omega
  · exact Bool.false_ne_true hbr

theorem C10_no_empty_eviction_witness :
    [mkDataPoint (5 : ℚ), mkDataPoint 6, mkDataPoint 7] ≠ [] :=
  C10_no_empty_eviction.1 3 [mkDataPoint 5, mkDataPoint 6, mkDataPoint 7] 8
    (by decide) (by decide)

/-- Closed form for feeding a sequence of values into the estimator window
from empty, for a positive window size: the window holds the most recent
`min (vs.length) window_size` values, oldest first. -/
theorem KPSS_feed_eq {α : Type} (window_size : ℕ) (h1 : 1 ≤ window_size)
    (vs : List α) :
    KPSS_feed window_size vs = vs.drop (vs.length - window_size) := by
  induction vs using List.reverseRecOn with
  | nil => simp [KPSS_feed]
  | append_singleton xs x ih =>
    have hstep : KPSS_feed window_size (xs ++ [x])
        = KPSSNonstationarityDegreeEstimator.update window_size
            (KPSS_feed window_size xs) x := by
      simp [KPSS_feed, List.foldl_append]
    rw [hstep, ih]
    have hlen : (xs.drop (xs.length - window_size)).length
        = xs.length - (xs.length - window_size) := by simp
    rw [KPSSNonstationarityDegreeEstimator.update]
    by_cases hk0 : xs.length = 0
    · have hxs : xs = [] := List.length_eq_zero.mp hk0
      subst hxs
      have h10 : 1 - window_size = 0 := by omega
      simp [h10]
    · by_cases hfull : window_size ≤ xs.length
      · have hws : xs.length - (xs.length - window_size) = window_size := by
          omega
        rw [if_neg (by omega), if_pos (by rw [hlen, hws])]
        rw [List.drop_drop]
        have hwin : (xs ++ [x]).drop ((xs ++ [x]).length - window_size)
            = xs.drop (xs.length + 1 - window_size) ++ [x] := by
          have hle : (xs ++ [x]).length - window_size ≤ xs.length := by
            simp
            omega
          rw [List.drop_append_of_le_length hle]
          congr 2
          simp
        rw [hwin]
        congr 2
        omega
      · push_neg at hfull
        have hd0 : xs.length - window_size = 0 := by omega
        rw [hd0, List.drop_zero]
        rw [if_neg hk0, if_neg (by omega)]
        have hd0' : (xs ++ [x]).length - window_size = 0 := by
          simp
          omega
        rw [hd0', List.drop_zero]

/-- Claim C7, counterexample to the unrestricted statement: with
`window_size = 0` the first `update` call leaves one row in the window,
violating `rows ≤ window_size`. -/
theorem C7_window_fifo_counterexample :
    ¬ (KPSS_feed 0 [(0 : ℤ)]).length ≤ 0 := by
  decide

/-- Claim C7 (amended to `window_size ≥ 1`; for `window_size = 0` the code
keeps no invariant, see the counterexample): after every `update` the window
holds at most `window_size` rows; once it holds exactly `window_size` rows each
further `update` first evicts the single oldest row and then appends the new
row; feeding `window_size + 1` values from empty leaves exactly the last
`window_size` values, dropping the first-fed one. -/
theorem C7_window_fifo (α : Type) (window_size : ℕ) (h1 : 1 ≤ window_size) :
    (∀ vs : List α, (KPSS_feed window_size vs).length ≤ window_size)
    ∧ (∀ (data : List α) (x : α), data.length = window_size →
        KPSSNonstationarityDegreeEstimator.update window_size data x
          = data.drop 1 ++ [x])
    ∧ (∀ vs : List α, vs.length = window_size + 1 →
        KPSS_feed window_size vs = vs.drop 1
          ∧ (KPSS_feed window_size vs).length = window_size) := by
  refine ⟨?_, ?_, ?_⟩
  · intro vs
    rw [KPSS_feed_eq window_size h1]
    simp
    omega
  · intro data x hdata
    rw [KPSSNonstationarityDegreeEstimator.update]
    rw [if_neg (by omega), if_pos hdata]
  · intro vs hvs
    have h := KPSS_feed_eq window_size h1 vs
    rw [hvs] at h
    have hd : window_size + 1 - window_size = 1 := by omega
    rw [hd] at h
    refine ⟨h, ?_⟩
    rw [h]
    simp [hvs]

theorem C7_window_fifo_witness :
    KPSS_feed 2 [(10 : ℤ), 11, 12] = [(10 : ℤ), 11, 12].drop 1
      ∧ (KPSS_feed 2 [(10 : ℤ), 11, 12]).length = 2 :=
  (C7_window_fifo ℤ 2 (by decide)).2.2 [10, 11, 12] (by decide)

theorem sgm_pos (x : ℝ) : 0 < sgm x := by
  rw [sgm]
  positivity

theorem sgm_lt_one (x : ℝ) : sgm x < 1 := by
  rw [sgm]
  rw [div_lt_one (by positivity)]
  have h := Real.exp_pos (-x)
  linarith

theorem le_foldl_max (d : ℝ) (ds : List ℝ) : ∀ x ∈ d :: ds, x ≤ ds.foldl max d := by
  induction ds generalizing d with
  | nil =>
    intro x hx
    rw [List.mem_singleton] at hx
    subst hx
    exact le_refl _
  | cons e ds ih =>
    intro x hx
    rw [List.foldl_cons]
    have hbase : max d e ≤ List.foldl max (max d e) ds :=
      ih (max d e) (max d e) (List.mem_cons_self _ _)
    rcases List.mem_cons.mp hx with h | h
    · rw [h]
      exact le_trans (le_max_left d e) hbase
    · rcases List.mem_cons.mp h with h2 | h2
      · rw [h2]
        exact le_trans (le_max_right d e) hbase
      · exact ih (max d e) x (List.mem_cons_of_mem _ h2)

theorem foldl_max_mem (d : ℝ) (ds : List ℝ) : ds.foldl max d ∈ d :: ds := by
  induction ds generalizing d with
  | nil => simp
  | cons e ds ih =>
    rw [List.foldl_cons]
    have h := ih (max d e)
    rcases List.mem_cons.mp h with h2 | h2
    · rw [h2]
      rcases max_choice d e with h3 | h3
      · rw [h3]
        exact List.mem_cons_self _ _
      · rw [h3]
        exact List.mem_cons_of_mem _ (List.mem_cons_self _ _)
    · exact List.mem_cons_of_mem _ (List.mem_cons_of_mem _ h2)

/-- When the stationarity test succeeds on every column, the degree-collection
loop returns the sigmoid-squashed statistic of each column in order. -/
theorem collectDegrees_ok (stat : List ℝ → ℝ) (rows : List (List ℝ))
    (is : List ℕ) :
    collectDegrees (fun s => Except.ok (stat s)) rows is
      = Except.ok (is.map fun i => sgm (0.995 * stat (column rows i) - 2.932)) := by
  induction is with
  | nil => rfl
  | cons i is ih =>
    rw [collectDegrees, ih]
    simp

/-- Claim C6: when the external stationarity test yields a statistic for every
dimension of a window with `D ≥ 1` dimensions, `evaluate()` returns exactly
`max over d of sgm(0.995 * s_d - 2.932)` (it dominates every dimension's degree
and is attained at one of them), and the returned value lies in `[0, 1]`. -/
theorem C6_nonstationarity_degree (stat : List ℝ → ℝ) (r : List ℝ)
    (rest : List (List ℝ)) (hD : 0 < r.length) :
    ∃ v, KPSSNonstationarityDegreeEstimator.evaluate
        (fun s => Except.ok (stat s)) (r :: rest) = Except.ok v
      ∧ 0 ≤ v ∧ v ≤ 1
      ∧ (∀ i < r.length,
          sgm (0.995 * stat (column (r :: rest) i) - 2.932) ≤ v)
      ∧ (∃ i < r.length,
          v = sgm (0.995 * stat (column (r :: rest) i) - 2.932)) := by
  rw [KPSSNonstationarityDegreeEstimator.evaluate,
    collectDegrees_ok stat (r :: rest) (List.range r.length)]
  set degrees := (List.range r.length).map
    (fun i => sgm (0.995 * stat (column (r :: rest) i) - 2.932)) with hdeg
  obtain ⟨d, ds, hdds⟩ : ∃ d ds, degrees = d :: ds := by
    cases hcase : degrees with
    | nil =>
      have hlen2 : degrees.length = 0 := by rw [hcase]; rfl
      rw [hdeg] at hlen2
      simp only [List.length_map, List.length_range] at hlen2
      omega
    | cons d ds => exact ⟨d, ds, rfl⟩
  rw [hdds]
  refine ⟨ds.foldl max d, rfl, ?_, ?_, ?_, ?_⟩
  · have hmem : ds.foldl max d ∈ degrees := hdds ▸ foldl_max_mem d ds
    rw [hdeg] at hmem
    obtain ⟨i, _, hi2⟩ := List.mem_map.mp hmem
    exact hi2 ▸ le_of_lt (sgm_pos _)
  · have hmem : ds.foldl max d ∈ degrees := hdds ▸ foldl_max_mem d ds
    rw [hdeg] at hmem
    obtain ⟨i, _, hi2⟩ := List.mem_map.mp hmem
    exact hi2 ▸ le_of_lt (sgm_lt_one _)
  · intro i hi
    refine le_foldl_max d ds _ ?_
    rw [← hdds, hdeg]
    exact List.mem_map.mpr ⟨i, List.mem_range.mpr hi, rfl⟩
  · have hmem : ds.foldl max d ∈ degrees := hdds ▸ foldl_max_mem d ds
    rw [hdeg] at hmem
    obtain ⟨i, hi1, hi2⟩ := List.mem_map.mp hmem
    exact ⟨i, List.mem_range.mp hi1, hi2.symm⟩

theorem C6_nonstationarity_degree_witness :
    ∃ v, KPSSNonstationarityDegreeEstimator.evaluate
        (fun s => Except.ok ((fun _ => (0 : ℝ)) s)) [[(0 : ℝ)]] = Except.ok v
      ∧ 0 ≤ v ∧ v ≤ 1
      ∧ (∀ i < [(0 : ℝ)].length,
          sgm (0.995 * (fun _ => (0 : ℝ)) (column [[(0 : ℝ)]] i) - 2.932) ≤ v)
      ∧ (∃ i < [(0 : ℝ)].length,
          v = sgm (0.995 * (fun _ => (0 : ℝ)) (column [[(0 : ℝ)]] i) - 2.932)) :=
  C6_nonstationarity_degree (fun _ => 0) [0] [] (by decide)

/-- Claim C9: calling `evaluate()` on a window with fewer rows than the
external stationarity test requires propagates the test's insufficient-data
failure (or the empty-window shape failure) to the caller; no degenerate or
default value is returned. -/
theorem C9_insufficient_data (test : List ℝ → Except String ℝ) (min_rows : ℕ)
    (rows : List (List ℝ))
    (htest : ∀ s : List ℝ, s.length < min_rows → ∃ e, test s = Except.error e)
    (hrows : rows.length < min_rows) :
    ∃ e, KPSSNonstationarityDegreeEstimator.evaluate test rows
        = Except.error e := by
  match rows with
  | [] => exact ⟨"tuple index out of range", rfl⟩
  | r :: rest =>
    rw [KPSSNonstationarityDegreeEstimator.evaluate]
    cases hr : r.length with
    | zero =>
      exact ⟨"max() arg is an empty sequence", rfl⟩
    | succ m =>
      rw [List.range_succ_eq_map, collectDegrees]
      have hcol : (column (r :: rest) 0).length < min_rows := by
        rw [column]
        simpa using hrows
      obtain ⟨e, he⟩ := htest (column (r :: rest) 0) hcol
      rw [he]
      exact ⟨e, rfl⟩

theorem C9_insufficient_data_witness :
    ∃ e, KPSSNonstationarityDegreeEstimator.evaluate
        (fun s => if s.length < 3 then Except.error "insufficient data"
          else Except.ok 0) [[(0 : ℝ)], [(1 : ℝ)]] = Except.error e :=
  C9_insufficient_data _ 3 [[(0 : ℝ)], [(1 : ℝ)]]
    (fun s h => ⟨"insufficient data", by simp [h]⟩) (by decide)

/-- Claim C5 (divergence witness): `DEDSTA.evaluate` in `algorithm.py` fits the
external density fitter directly on the reservoir's current weights, leaving
the reservoir untouched. On a one-sample reservoir whose weight is 1/2 it
passes weights `[1/2]`, while the claimed pipeline (reset to 1 then aging)
would pass `[2]` for every nonstationarity degree `ν`; no estimator value is
computed and no module runs. -/
theorem C5_evaluate_disconnected (ν : ℚ) :
    (DEDSTA.evaluate "gaussian"
        [{ value := (0 : ℚ), weight := 1 / 2 }] [0]).1.weights = [1 / 2]
    ∧ (DEDSTA.evaluate "gaussian"
        [{ value := (0 : ℚ), weight := 1 / 2 }] [0]).2
      = [{ value := (0 : ℚ), weight := 1 / 2 }]
    ∧ get_weights (DEDSTAAgingModule.apply ν
        (reset_weights [{ value := (0 : ℚ), weight := 1 / 2 }])) = [2] := by
  refine ⟨rfl, rfl, ?_⟩
  simp [DEDSTAAgingModule.apply, reset_weights, get_weights, List.mapIdx_cons,
    size]

end DESDA
